import Mathlib

/-!
Verification of the Crewd collaboration platform against its specification.

The repository holds three iterations of the same web application (a Flask
iteration in `app.py`/`models.py`/`utils.py`, a Django iteration in `core/`,
and a Django iteration in `crewd/`).  This development shallowly embeds the
data model and the request handlers the claims talk about: Python strings are
Lean `String`s (lists of characters), database rows are structures, database
tables are lists of rows, and each handler is a pure function from its inputs
and the relevant table state to its response and the updated state.  Python
string operations (`split`, `strip`, `lower`, `join`, substring tests) are
given explicit executable embeddings below.
-/

namespace Crewd

/-! ## Python string primitives -/

/-- Characters treated as whitespace by Python `str.strip()`. -/
def isPySpace (c : Char) : Bool :=
  c = ' ' || c = '\t' || c = '\n' || c = '\r' || c = '\x0b' || c = '\x0c'

/-- Python `str.strip()` on a character list: drop whitespace from both ends. -/
def pyStripList (l : List Char) : List Char :=
  ((l.dropWhile isPySpace).reverse.dropWhile isPySpace).reverse

/-- Python `str.strip()`. -/
def pyStrip (s : String) : String :=
  String.mk (pyStripList s.toList)

/-- Python `str.lower()`; the alphabet used by the program is ASCII, where
`Char.toLower` agrees with Python. -/
def pyLower (s : String) : String :=
  String.mk (s.toList.map Char.toLower)

/-- Does `needle` occur at the head of `hay`? Helper for the Python `in`
substring test. -/
def headMatches : List Char → List Char → Bool
  | [], _ => true
  | _ :: _, [] => false
  | a :: as, b :: bs => a = b && headMatches as bs

/-- Does `needle` occur anywhere in `hay`? Helper for the Python `in`
substring test. -/
def containsSeq (needle : List Char) : List Char → Bool
  | [] => needle.isEmpty
  | b :: bs => headMatches needle (b :: bs) || containsSeq needle bs

/-- Python `needle in haystack` on strings (substring containment). -/
def pyContains (haystack needle : String) : Bool :=
  containsSeq needle.toList haystack.toList

/-- Python `s.split(sep)` for a one-character separator: `"".split(sep)` is
`[""]`, and separators are not merged. -/
def pySplitComma (s : String) : List String :=
  (s.toList.splitOn ',').map String.mk

/-- Python `",".join(l)`. -/
def pyJoinComma (l : List String) : String :=
  String.mk ([','].intercalate (l.map String.toList))

/-! ## Tech-stack getters

`accounts/models.py` (`User.get_tech_stack_list`) strips every entry and
drops entries that strip to the empty string; `projects/models.py`
(`Project.get_required_skills_list`) strips every entry and keeps all of
them; the Flask `models.py` getters split without stripping.  All three
return `[]` for a null or empty stored value (Python truthiness of the
field). -/

/-- Embeds `User.get_tech_stack_list` from `crewd/accounts/models.py`:
split on commas, strip each entry, keep only entries that are non-empty
after stripping. -/
def get_tech_stack_list (tech_stack : Option String) : List String :=
  match tech_stack with
  | none => []
  | some s =>
    if s = "" then []
    else (pySplitComma s).filterMap (fun t =>
      let t1 := pyStrip t
      if t1 = "" then none else some t1)

/-- Embeds `Project.get_required_skills_list` from `crewd/projects/models.py`:
split on commas and strip each entry. -/
def get_required_skills_list (required_skills : Option String) : List String :=
  match required_skills with
  | none => []
  | some s => if s = "" then [] else (pySplitComma s).map pyStrip

/-- Embeds `User.get_tech_stack_list` from the Flask `models.py`: a plain
comma split with no stripping. -/
def get_tech_stack_list_flask (tech_stack : Option String) : List String :=
  match tech_stack with
  | none => []
  | some s => if s = "" then [] else pySplitComma s

/-- A skill string as produced by the profile forms: non-empty, without a
comma, and without leading or trailing whitespace. -/
def cleanSkill (s : String) : Prop :=
  s ≠ "" ∧ ',' ∉ s.toList ∧ pyStrip s = s

instance (s : String) : Decidable (cleanSkill s) :=
  inferInstanceAs (Decidable (s ≠ "" ∧ ',' ∉ s.toList ∧ pyStrip s = s))

/-! ## Upload filter (`utils.py` and `core/utils.py`) -/

/-- The allowed upload extensions of `allowed_file`. -/
def ALLOWED_EXTENSIONS : List String := ["png", "jpg", "jpeg"]

/-- Python `filename.rsplit('.', 1)`: when the list holds a dot, the pieces
before and after the last dot; otherwise the whole list as a single piece. -/
def rsplitDotOnce (l : List Char) : List (List Char) :=
  if l.contains '.' then
    [((l.reverse.dropWhile (fun c => c != '.')).tail).reverse,
     (l.reverse.takeWhile (fun c => c != '.')).reverse]
  else [l]

/-- Embeds `allowed_file` from `utils.py` (identical in `core/utils.py`):
`'.' in filename and filename.rsplit('.', 1)[1].lower() in allowed_extensions`. -/
def allowed_file (filename : String) : Bool :=
  filename.toList.contains '.' &&
    decide (String.mk (((rsplitDotOnce filename.toList).getD 1 []).map Char.toLower)
      ∈ ALLOWED_EXTENSIONS)

/-- The property claimed of `allowed_file`: the filename decomposes around a
last dot whose suffix lowercases to an allowed extension. -/
def allowedFileSpec (filename : String) : Prop :=
  ∃ a b : List Char, filename.toList = a ++ '.' :: b ∧ '.' ∉ b ∧
    String.mk (b.map Char.toLower) ∈ ALLOWED_EXTENSIONS

/-! ## Data model rows -/

/-- The fields of `projects.models.Project` used by the matching views. -/
structure ProjectRow where
  pid : Nat
  requiredSkills : Option String
  status : String
  creatorId : Nat
deriving DecidableEq

/-- The fields of the user model used by the matching views. -/
structure UserRow where
  uid : Nat
  techStack : Option String
deriving DecidableEq

/-! ## Skill matching (`projects/dashboard_views.py`)

Each recommendation loop computes `set(user_skills) & set(project_skills)`,
keeps the entity when that intersection is non-empty, records
`len(matching_skills)` as the score, sorts descending by the key and
truncates.  Python `list.sort` is stable, and a stable sort is determined
uniquely by the key and the input order, so it is embedded as the stable
`List.insertionSort` with a non-strict descending relation. -/

/-- `len(set(userSkills) & set(projectSkills))`: the number of distinct
shared entries. -/
def matchingSkillCount (userSkills projectSkills : List String) : Nat :=
  (userSkills.toFinset ∩ projectSkills.toFinset).card

/-- Descending order on count-scored projects, as produced by
`sort(key=lambda p: p.matching_skill_count, reverse=True)`. -/
def projCountGe : (ProjectRow × Nat) → (ProjectRow × Nat) → Prop :=
  fun a b => b.2 ≤ a.2

instance : DecidableRel projCountGe :=
  fun a b => Nat.decLe b.2 a.2

instance : IsTotal (ProjectRow × Nat) projCountGe :=
  ⟨fun a b => le_total b.2 a.2⟩

instance : IsTrans (ProjectRow × Nat) projCountGe :=
  ⟨fun _ _ _ h1 h2 => le_trans h2 h1⟩

/-- Descending order on percent-scored users, as produced by
`sort(key=lambda u: u.matching_skill_percent, reverse=True)`. -/
def userPercentGe : (UserRow × Nat × ℚ) → (UserRow × Nat × ℚ) → Prop :=
  fun a b => b.2.2 ≤ a.2.2

instance : DecidableRel userPercentGe :=
  fun a b => inferInstanceAs (Decidable (b.2.2 ≤ a.2.2))

instance : IsTotal (UserRow × Nat × ℚ) userPercentGe :=
  ⟨fun a b => le_total b.2.2 a.2.2⟩

instance : IsTrans (UserRow × Nat × ℚ) userPercentGe :=
  ⟨fun _ _ _ h1 h2 => le_trans h2 h1⟩

/-- The projects the applicant-dashboard loop considers: active and not
created by the requesting user (`Project.objects.filter(status='active')
.exclude(creator=user)`). -/
def applicantCandidates (userId : Nat) (allProjects : List ProjectRow) : List ProjectRow :=
  allProjects.filter (fun p => p.status == "active" && p.creatorId != userId)

/-- The scoring loop shared by `ApplicantDashboardView.get` and
`ProjectsListView.get`: keep each project whose required skills meet the
user tech stack, paired with its `matching_skill_count`. -/
def scoreProjects (userSkills : List String) (projects : List ProjectRow) :
    List (ProjectRow × Nat) :=
  projects.filterMap (fun p =>
    let n := matchingSkillCount userSkills (get_required_skills_list p.requiredSkills)
    if n = 0 then none else some (p, n))

/-- Embeds the recommended-projects computation of
`ApplicantDashboardView.get` (`dashboard_views.py` lines 70-88): when the
user has a tech stack, score the active foreign projects, sort by
descending matching-skill count and keep the first 6. -/
def applicantRecommendedProjects (userId : Nat) (userTechStack : Option String)
    (allProjects : List ProjectRow) : List (ProjectRow × Nat) :=
  let uts := get_tech_stack_list userTechStack
  if uts = [] then []
  else
    ((scoreProjects uts (applicantCandidates userId allProjects)).insertionSort
      projCountGe).take 6

/-- Embeds the recommended-projects computation of `ProjectsListView.get`
(`dashboard_views.py` lines 212-228); `projects` is the filtered queryset
the view iterates over. -/
def projectsListRecommended (userTechStack : Option String)
    (projects : List ProjectRow) : List (ProjectRow × Nat) :=
  let uts := get_tech_stack_list userTechStack
  if uts = [] then []
  else ((scoreProjects uts projects).insertionSort projCountGe).take 6

/-- The scoring loop of `FindContributorsView.get`: keep each user whose
tech stack meets the project skills, paired with `matching_skill_count` and
`matching_skill_percent = count / len(project_skills) * 100`. -/
def scoreUsers (projectSkills : List String) (users : List UserRow) :
    List (UserRow × Nat × ℚ) :=
  users.filterMap (fun u =>
    let n := matchingSkillCount (get_tech_stack_list u.techStack) projectSkills
    if n = 0 then none
    else some (u, n, ((n : ℚ) / (projectSkills.length : ℚ)) * 100))

/-- Embeds the recommended-users computation of `FindContributorsView.get`
(`dashboard_views.py` lines 643-658, truncated to 9 in the context at line
672): when the project has required skills and the match filter is
`recommended`, score the users, sort by descending percentage and keep the
first 9. -/
def findContributorsRecommended (projectRequiredSkills : Option String)
    (matchFilter : String) (users : List UserRow) : List (UserRow × Nat × ℚ) :=
  let ps := get_required_skills_list projectRequiredSkills
  if ps = [] ∨ matchFilter ≠ "recommended" then []
  else ((scoreUsers ps users).insertionSort userPercentGe).take 9

/-- The matching candidates of the applicant dashboard, named for the
truncation bound in the theorems below. -/
def applicantMatching (userId : Nat) (userTechStack : Option String)
    (allProjects : List ProjectRow) : List ProjectRow :=
  (applicantCandidates userId allProjects).filter (fun p =>
    matchingSkillCount (get_tech_stack_list userTechStack)
      (get_required_skills_list p.requiredSkills) != 0)

/-- The matching candidates of the projects-list view. -/
def projectsListMatching (userTechStack : Option String)
    (projects : List ProjectRow) : List ProjectRow :=
  projects.filter (fun p =>
    matchingSkillCount (get_tech_stack_list userTechStack)
      (get_required_skills_list p.requiredSkills) != 0)

/-- The matching candidates of the find-contributors view. -/
def findContributorsMatching (projectRequiredSkills : Option String)
    (users : List UserRow) : List UserRow :=
  users.filter (fun u =>
    matchingSkillCount (get_tech_stack_list u.techStack)
      (get_required_skills_list projectRequiredSkills) != 0)

/-! ## Tech-stack suggestion endpoints

Two iterations expose an analyze endpoint.  The external LLM call is a
boundary: its outcome (exception or timeout, HTTP status, and for the
dashboard version the result of the `re.search` plus `json.loads` extraction
of a JSON list from the returned content) is an input to the embedded
handler.  Everything after the boundary is translated from the source. -/

/-- `TECH_CHOICES` from `crewd/accounts/models.py` (the list imported by
`projects/dashboard_views.py`). -/
def TECH_CHOICES : List String :=
  ["Python", "JavaScript", "TypeScript", "Java", "C#", "C++",
   "PHP", "Ruby", "Swift", "Kotlin", "Go", "Rust",
   "React", "Angular", "Vue", "Node.js", "Django", "Flask",
   "Spring", "Express", "Laravel", "Ruby on Rails",
   "MongoDB", "PostgreSQL", "MySQL", "Redis", "SQLite",
   "Docker", "Kubernetes", "AWS", "Azure", "Google Cloud",
   "HTML/CSS", "TailwindCSS", "Bootstrap", "SASS",
   "Git", "CI/CD", "Agile", "Scrum",
   "Mobile Development", "Web Development", "Desktop Applications",
   "Machine Learning", "AI", "Data Science", "DevOps", "UI/UX Design"]

/-- The JSON responses the analyze endpoints produce: a 200 response whose
payload carries the suggestion list, or a 400 response with an error
message. -/
inductive ApiResponse where
  | ok (skills : List String)
  | badRequest (error : String)
deriving DecidableEq

/-- Outcome of the `requests.post` call in the dashboard endpoint:
`exn` covers a raised exception (including a timeout); otherwise the HTTP
status code together with the result of extracting a JSON list from the
response content (`re.search` for a bracketed run followed by `json.loads`;
`none` when there is no match or decoding fails). -/
inductive HttpResult where
  | exn
  | response (statusCode : Nat) (extracted : Option (List String))
deriving DecidableEq

/-- The keyword-to-technology table of
`AnalyzeTechStackView._fallback_analyze` in `projects/dashboard_views.py`,
in source order (Python dicts iterate in insertion order). -/
def keyword_mapping : List (String × List String) :=
  [("web", ["HTML/CSS", "JavaScript", "React", "Bootstrap"]),
   ("website", ["HTML/CSS", "JavaScript", "Bootstrap"]),
   ("frontend", ["HTML/CSS", "JavaScript", "React", "Angular", "Vue"]),
   ("backend", ["Python", "Django", "Node.js", "Express"]),
   ("database", ["SQL", "PostgreSQL", "MySQL", "MongoDB"]),
   ("mobile", ["React Native", "Swift", "Kotlin", "Mobile Development"]),
   ("app", ["JavaScript", "React Native", "Mobile Development"]),
   ("data", ["Python", "Data Science", "PostgreSQL", "MySQL"]),
   ("analytics", ["Python", "Data Science"]),
   ("machine learning", ["Python", "Machine Learning"]),
   ("ai", ["Python", "Machine Learning"]),
   ("cloud", ["AWS", "Azure", "Google Cloud"]),
   ("docker", ["Docker", "Kubernetes"]),
   ("microservices", ["Microservices", "Docker", "Kubernetes"]),
   ("api", ["REST API", "Express", "Django", "Node.js"])]

/-- Embeds `AnalyzeTechStackView._fallback_analyze` from
`projects/dashboard_views.py`: lowercase the description, collect every
tech choice mentioned verbatim, then append the techs of every matched
keyword that are not yet collected, and keep the first 10. -/
def fallback_analyze_dashboard (description : String) : List String :=
  let d := pyLower description
  let direct := TECH_CHOICES.filter (fun tech => pyContains d (pyLower tech))
  let all := keyword_mapping.foldl (fun acc kt =>
    if pyContains d kt.1 then
      kt.2.foldl (fun acc2 tech => if tech ∈ acc2 then acc2 else acc2 ++ [tech]) acc
    else acc) direct
  all.take 10

/-- The hard-coded Grok API key of `projects/dashboard_views.py` line 904
(the literal key is redacted here; the handler only tests that it is
non-empty, which the redaction preserves). -/
def grok_api_key : String := "gsk_redacted"

/-- Embeds `AnalyzeTechStackView.post` from `projects/dashboard_views.py`
(lines 892-963).  `body` is the parsed request body: `none` when
`json.loads` on the body fails, otherwise the `description` field. -/
def analyze_tech_stack_dashboard (body : Option String) (http : HttpResult) :
    ApiResponse :=
  match body with
  | none => ApiResponse.badRequest "Invalid JSON"
  | some description =>
    if description = "" then
      ApiResponse.badRequest "Project description is required"
    else if grok_api_key = "" then
      ApiResponse.ok (fallback_analyze_dashboard description)
    else
      match http with
      | HttpResult.exn => ApiResponse.ok (fallback_analyze_dashboard description)
      | HttpResult.response statusCode extracted =>
        if statusCode = 200 then
          match extracted with
          | some skills =>
            ApiResponse.ok (skills.filter (fun skill => skill ∈ TECH_CHOICES))
          | none => ApiResponse.ok (fallback_analyze_dashboard description)
        else ApiResponse.ok (fallback_analyze_dashboard description)

/-- The keyword table of `AnalyzeTechStackView._fallback_analyze` in
`crewd/projects/views.py`, in source order. -/
def keyword_map_views : List (String × List String) :=
  [("web", ["JavaScript", "HTML", "CSS", "React", "Node.js"]),
   ("frontend", ["JavaScript", "React", "Vue.js", "Angular"]),
   ("backend", ["Python", "Node.js", "Java", "C#"]),
   ("mobile", ["React Native", "Flutter", "Swift", "Kotlin"]),
   ("data", ["Python", "R", "SQL", "Pandas", "Jupyter"]),
   ("machine learning", ["Python", "TensorFlow", "PyTorch", "scikit-learn"]),
   ("ai", ["Python", "TensorFlow", "PyTorch", "NLTK"]),
   ("game", ["Unity", "C#", "C++", "JavaScript"]),
   ("database", ["PostgreSQL", "MySQL", "MongoDB", "Redis"]),
   ("cloud", ["AWS", "Azure", "Google Cloud", "Docker"]),
   ("enterprise", ["Java", "C#", ".NET", "Oracle"]),
   ("ecommerce", ["Shopify", "WooCommerce", "React", "Node.js"]),
   ("real-time", ["Node.js", "Socket.io", "WebSockets", "Redis"]),
   ("blockchain", ["Solidity", "Web3.js", "Ethereum", "React"]),
   ("iot", ["Python", "C++", "MQTT", "Arduino"]),
   ("security", ["Python", "Go", "Rust", "C++"])]

/-- Embeds `AnalyzeTechStackView._fallback_analyze` from
`crewd/projects/views.py`: gather the techs of every matched keyword,
deduplicate (the source builds `list(set(suggestions))`, whose order Python
leaves unspecified; the embedding fixes first-occurrence order), fall back
to a generic stack when nothing matched, and keep the first 8. -/
def fallback_analyze_views (description : String) : List String :=
  let d := pyLower description
  let suggestions := keyword_map_views.foldl (fun acc kt =>
    if pyContains d kt.1 then acc ++ kt.2 else acc) []
  let deduped := suggestions.dedup
  let final :=
    if deduped = [] then ["JavaScript", "Python", "React", "Node.js", "PostgreSQL"]
    else deduped
  final.take 8

/-- Outcome of `_analyze_with_grok` past the API-key check in
`crewd/projects/views.py`: `exn` covers any raised exception (import,
HTTP call, or JSON decoding, all caught by its handler); otherwise the
shape of the decoded JSON: a dict carrying a `technologies` list, a dict
without that key, a bare list, or any other value. -/
inductive GrokOutcome where
  | exn
  | dictWithTechnologies (techs : List String)
  | dictWithout
  | bareList (techs : List String)
  | otherShape
deriving DecidableEq

/-- Embeds `AnalyzeTechStackView._analyze_with_grok` from
`crewd/projects/views.py` (lines 212-253). -/
def analyze_with_grok (description : String) (apiKey : Option String)
    (outcome : GrokOutcome) : List String :=
  match apiKey with
  | none => fallback_analyze_views description
  | some k =>
    if k = "" then fallback_analyze_views description
    else
      match outcome with
      | GrokOutcome.exn => fallback_analyze_views description
      | GrokOutcome.dictWithTechnologies techs => techs
      | GrokOutcome.dictWithout => fallback_analyze_views description
      | GrokOutcome.bareList techs => techs
      | GrokOutcome.otherShape => fallback_analyze_views description

/-- Embeds `AnalyzeTechStackView.post` from `crewd/projects/views.py`
(lines 197-210).  The `try` around `_analyze_with_grok` also answers with
the fallback on an exception; that path is the `GrokOutcome.exn` case, as
`_analyze_with_grok` already catches every exception of its body. -/
def analyze_tech_stack_views (description : String) (apiKey : Option String)
    (outcome : GrokOutcome) : ApiResponse :=
  if description = "" then ApiResponse.badRequest "No description provided"
  else ApiResponse.ok (analyze_with_grok description apiKey outcome)

/-! ## Status lifecycles (C3, C4, C5) -/

/-- The status values of `Application.STATUS_CHOICES` in
`crewd/projects/models.py`. -/
def APPLICATION_STATUSES : List String := ["pending", "accepted", "rejected"]

/-- The status values of `Invitation.STATUS_CHOICES` in
`crewd/projects/models.py`. -/
def INVITATION_STATUSES : List String := ["pending", "accepted", "rejected"]

/-- The model default of `Application.status` and `Invitation.status`
(`default='pending'`), also the explicit status of the Flask
`apply_project`. -/
def status_default_pending : String := "pending"

/-- The status values of `Project.STATUS_CHOICES` in
`crewd/projects/models.py`. -/
def PROJECT_STATUSES : List String := ["active", "completed", "cancelled"]

/-- The model default of `Project.status` (`default='active'`), also the
explicit status the Flask `create_project` stores. -/
def project_status_default : String := "active"

/-- The record state the invitation and application update endpoints touch:
the status field of the record, whether a `ProjectMembership` row for the
subject and project exists, and whether the `Group` row of the project
exists. -/
structure LifecycleState where
  recStatus : String
  isMember : Bool
  groupExists : Bool
deriving DecidableEq

/-- Result of an update endpoint: the updated state, a rejected submission
(`Invalid status.` message, record unchanged), or an `IntegrityError`
raised by `ProjectMembership.objects.create` on a duplicate
(`unique_together = ('project', 'user')` in `crewd/projects/models.py`);
the status write precedes the create, so the state it reached is carried. -/
inductive UpdateOutcome where
  | ok (st : LifecycleState)
  | invalidStatus
  | integrityError (st : LifecycleState)
deriving DecidableEq

/-- Embeds `UpdateInvitationView.post` from `projects/dashboard_views.py`
(lines 289-319): reject a status outside accepted/rejected; otherwise save
the status, and on acceptance create the membership unconditionally and
get-or-create the group. -/
def updateInvitation (st : LifecycleState) (newStatus : String) : UpdateOutcome :=
  if newStatus ≠ "accepted" ∧ newStatus ≠ "rejected" then UpdateOutcome.invalidStatus
  else
    let st1 : LifecycleState := { st with recStatus := newStatus }
    if newStatus = "accepted" then
      if st.isMember then UpdateOutcome.integrityError st1
      else UpdateOutcome.ok { st1 with isMember := true, groupExists := true }
    else UpdateOutcome.ok st1

/-- Embeds `UpdateApplicationView.post` from `projects/dashboard_views.py`
(lines 847-886): as `updateInvitation`, but the membership create is
guarded by an existence check, so acceptance is idempotent on the
membership. -/
def updateApplication (st : LifecycleState) (newStatus : String) : UpdateOutcome :=
  if newStatus ≠ "accepted" ∧ newStatus ≠ "rejected" then UpdateOutcome.invalidStatus
  else
    let st1 : LifecycleState := { st with recStatus := newStatus }
    if newStatus = "accepted" then
      UpdateOutcome.ok { st1 with isMember := true, groupExists := true }
    else UpdateOutcome.ok st1

/-- Embeds `update_application` from the Flask `app.py` (lines 270-293),
restricted to its status logic: a submitted status inside
pending/accepted/rejected replaces the stored one, anything else leaves the
record unchanged and flashes an error.  The returned flag is true when the
error was reported. -/
def flask_update_application (current submitted : String) : String × Bool :=
  if submitted ∈ APPLICATION_STATUSES then (submitted, false) else (current, true)

/-- The status logic of `UpdateApplicationView.post` from
`projects/dashboard_views.py` in the same shape: only accepted/rejected are
applied, anything else leaves the record unchanged and reports
`Invalid status.`. -/
def django_update_application (current submitted : String) : String × Bool :=
  if submitted = "accepted" ∨ submitted = "rejected" then (submitted, false)
  else (current, true)

/-- Embeds the status update of `ManageProjectView.post`
(`projects/dashboard_views.py` lines 578-583): the submitted status is
stored only when it is active/completed/cancelled; otherwise the project is
left unchanged (the view simply falls through). -/
def manage_project_update_status (current submitted : String) : String :=
  if submitted ∈ PROJECT_STATUSES then submitted else current

/-- The fields of the Flask `Project` row set by `create_project`
(`app.py` lines 170-182). -/
structure FlaskProjectRow where
  title : String
  description : String
  requiredSkills : String
  teamSize : Nat
  duration : String
  status : String
deriving DecidableEq

/-- Embeds the row constructed by the Flask `create_project`: the status is
always stored as `active`. -/
def flask_create_project (title description : String)
    (requiredSkillsSelected : List String) (teamSize : Nat) (duration : String) :
    FlaskProjectRow :=
  { title := title
    description := description
    requiredSkills :=
      if requiredSkillsSelected = [] then "" else pyJoinComma requiredSkillsSelected
    teamSize := teamSize
    duration := duration
    status := "active" }

/-! ## Group chat (C7, C8) -/

/-- A `ProjectMembership` row restricted to its key fields. -/
structure MembershipRow where
  userId : Nat
  projectId : Nat
deriving DecidableEq

/-- A `Message` row (`crewd/projects/models.py` lines 144-152); creation
time is modelled as a natural timestamp. -/
structure MessageRow where
  mid : Nat
  groupId : Nat
  senderId : Nat
  content : String
  createdAt : Nat
deriving DecidableEq

/-- A `Group` row restricted to its key fields (one group per project). -/
structure GroupRow where
  gid : Nat
  projectId : Nat
deriving DecidableEq

/-- The tables `ViewGroupView` reads and writes. -/
structure ChatState where
  memberships : List MembershipRow
  messages : List MessageRow
deriving DecidableEq

/-- `ProjectMembership.objects.filter(user=..., project=...).exists()`. -/
def isProjectMember (st : ChatState) (userId projectId : Nat) : Bool :=
  st.memberships.any (fun m => m.userId == userId && m.projectId == projectId)

/-- Ascending creation-time order, as produced by `order_by('created_at')`. -/
def msgCreatedLe : MessageRow → MessageRow → Prop :=
  fun a b => a.createdAt ≤ b.createdAt

instance : DecidableRel msgCreatedLe :=
  fun a b => Nat.decLe a.createdAt b.createdAt

instance : IsTotal MessageRow msgCreatedLe :=
  ⟨fun a b => le_total a.createdAt b.createdAt⟩

instance : IsTrans MessageRow msgCreatedLe :=
  ⟨fun _ _ _ h1 h2 => le_trans h1 h2⟩

/-- Embeds `ViewGroupView.get` from `projects/dashboard_views.py` (lines
379-402), restricted to the message list it renders: a non-member is
redirected away with an error (`none`); a member sees the group messages
ordered by `created_at`. -/
def viewGroupGet (st : ChatState) (userId : Nat) (g : GroupRow) :
    Option (List MessageRow) :=
  if isProjectMember st userId g.projectId then
    some ((st.messages.filter (fun m => m.groupId == g.gid)).insertionSort msgCreatedLe)
  else none

/-- Embeds `ViewGroupView.post` from `projects/dashboard_views.py` (lines
404-422): a non-member is redirected away with an error and nothing is
created (flag true); a member posting a message that strips to non-empty
appends it to the message table. -/
def viewGroupPost (st : ChatState) (userId : Nat) (g : GroupRow)
    (newId : Nat) (rawMessage : String) (now : Nat) : ChatState × Bool :=
  if isProjectMember st userId g.projectId then
    let content := pyStrip rawMessage
    if content ≠ "" then
      ({ st with messages :=
          st.messages ++ [⟨newId, g.gid, userId, content, now⟩] }, false)
    else (st, false)
  else (st, true)

/-! ## Applications (C9) -/

/-- An `Application` row restricted to the fields the apply operations
touch. -/
structure ApplicationRow where
  projectId : Nat
  applicantId : Nat
  status : String
  message : String
deriving DecidableEq

/-- At most one application per (project, applicant) pair, the constraint
`unique_together = ('project', 'applicant')` declares. -/
def pairUnique (apps : List ApplicationRow) : Prop :=
  apps.Pairwise (fun a b => ¬(a.projectId = b.projectId ∧ a.applicantId = b.applicantId))

instance (apps : List ApplicationRow) : Decidable (pairUnique apps) :=
  inferInstanceAs (Decidable (apps.Pairwise
    (fun a b : ApplicationRow =>
      ¬(a.projectId = b.projectId ∧ a.applicantId = b.applicantId))))

/-- `Application.objects.filter(project=..., applicant=...).exists()`. -/
def hasApplied (apps : List ApplicationRow) (projectId applicantId : Nat) : Bool :=
  apps.any (fun a => a.projectId == projectId && a.applicantId == applicantId)

/-- Result of an apply operation over the application table. -/
inductive ApplyOutcome where
  | created (apps : List ApplicationRow)
  | alreadyApplied
  | wrongRole
deriving DecidableEq

/-- Embeds `apply_project` from the Flask `app.py` (lines 210-244): only
applicants may apply; an existing application for the pair flashes
`You have already applied to this project` and changes nothing; otherwise a
pending application is inserted. -/
def flask_apply_project (apps : List ApplicationRow) (role : String)
    (projectId userId : Nat) (message : String) : ApplyOutcome :=
  if role ≠ "applicant" then ApplyOutcome.wrongRole
  else if hasApplied apps projectId userId then ApplyOutcome.alreadyApplied
  else ApplyOutcome.created (apps ++ [⟨projectId, userId, "pending", message⟩])

/-- Embeds `apply_project` from `core/views.py` (lines 172-202): the same
guards as the Flask iteration (role via the profile, duplicate check with
an error message), creating a row with the model default `pending`. -/
def core_apply_project (apps : List ApplicationRow) (role : String)
    (projectId userId : Nat) (message : String) : ApplyOutcome :=
  if role ≠ "applicant" then ApplyOutcome.wrongRole
  else if hasApplied apps projectId userId then ApplyOutcome.alreadyApplied
  else ApplyOutcome.created (apps ++ [⟨projectId, userId, "pending", message⟩])

/-- Embeds the guard chain of `ApplyProjectView.get` from
`crewd/projects/views.py` (lines 63-86): the result is true when the apply
form is shown, false when the user is redirected away with a message
(own project, already applied, or already a member). -/
def crewd_apply_get (apps : List ApplicationRow) (memberships : List MembershipRow)
    (creatorId userId projectId : Nat) : Bool :=
  if creatorId == userId then false
  else if hasApplied apps projectId userId then false
  else if memberships.any (fun m => m.userId == userId && m.projectId == projectId) then
    false
  else true

/-- Embeds `ApplyProjectView.post` from `crewd/projects/views.py` (lines
88-100) together with the model constraint: the view inserts
unconditionally, and `unique_together = ('project', 'applicant')`
(`crewd/projects/models.py` lines 83-84) makes the insert of a duplicate
pair raise `IntegrityError`, leaving the table unchanged. -/
def crewd_apply_post (apps : List ApplicationRow) (projectId userId : Nat)
    (message : String) : Except Unit (List ApplicationRow) :=
  if hasApplied apps projectId userId then Except.error ()
  else Except.ok (apps ++ [⟨projectId, userId, "pending", message⟩])

/-! ## Concrete instances used to separate claims from the code -/

/-- Seven active projects by another creator, all requiring exactly the one
skill `Python`. -/
def sevenPythonProjects : List ProjectRow :=
  [⟨1, some "Python", "active", 99⟩, ⟨2, some "Python", "active", 99⟩,
   ⟨3, some "Python", "active", 99⟩, ⟨4, some "Python", "active", 99⟩,
   ⟨5, some "Python", "active", 99⟩, ⟨6, some "Python", "active", 99⟩,
   ⟨7, some "Python", "active", 99⟩]

/-! # Theorems -/

/-! ## Generic facts about the sort-and-truncate pattern -/

/-- Membership in a truncated stable sort implies membership in the input. -/
theorem mem_of_mem_sortTake {α : Type} (r : α → α → Prop) [DecidableRel r]
    {l : List α} {k : Nat} {x : α}
    (hx : x ∈ (l.insertionSort r).take k) : x ∈ l :=
  (List.mem_insertionSort r).mp ((List.take_sublist k _).subset hx)

/-- A truncated stable sort is pairwise ordered by the sorting relation. -/
theorem pairwise_sortTake {α : Type} (r : α → α → Prop) [DecidableRel r]
    [IsTotal α r] [IsTrans α r] (l : List α) (k : Nat) :
    ((l.insertionSort r).take k).Pairwise r :=
  List.Pairwise.sublist (List.take_sublist k _) (List.sorted_insertionSort r l)

/-- When the input fits under the truncation bound, truncation is the
identity and membership in the result is membership in the input. -/
theorem mem_sortTake_iff_of_length_le {α : Type} (r : α → α → Prop) [DecidableRel r]
    {l : List α} {k : Nat} (h : l.length ≤ k) {x : α} :
    x ∈ (l.insertionSort r).take k ↔ x ∈ l := by
  rw [List.take_of_length_le (by rw [List.length_insertionSort]; exact h)]
  exact List.mem_insertionSort r

/-- The score-and-keep loop as a filter followed by a map. -/
theorem filterMap_score_eq {α γ : Type} (c : α → Nat) (f : α → γ) (l : List α) :
    l.filterMap (fun p => if c p = 0 then none else some (f p)) =
      (l.filter (fun p => c p != 0)).map f := by
  induction l with
  | nil => rfl
  | cons a t ih =>
    by_cases h : c a = 0 <;> simp [List.filterMap_cons, List.filter_cons, h, ih]

/-! ## C10: the upload filter -/

/-- A `takeWhile` over a list that breaks exactly at `y` returns the part
before `y`. -/
theorem takeWhile_break {p : Char → Bool} (y : Char) (ys : List Char)
    (hy : p y = false) :
    ∀ xs : List Char, (∀ x ∈ xs, p x = true) →
      (xs ++ y :: ys).takeWhile p = xs := by
  intro xs
  induction xs with
  | nil => intro _; simp [List.takeWhile_cons, hy]
  | cons a t ih =>
    intro hxs
    have ha : p a = true := hxs a (List.mem_cons_self a t)
    simp [List.takeWhile_cons, ha,
      ih (fun x hx => hxs x (List.mem_cons_of_mem a hx))]

/-- A list holding a dot breaks at its first dot, with a dot-free part in
front. -/
theorem break_at_first_dot :
    ∀ r : List Char, '.' ∈ r →
      r = r.takeWhile (fun c => c != '.') ++
            '.' :: (r.dropWhile (fun c => c != '.')).tail ∧
        '.' ∉ r.takeWhile (fun c => c != '.') := by
  intro r
  induction r with
  | nil => intro h; cases h
  | cons c rest ih =>
    intro h
    by_cases hc : c = '.'
    · subst hc
      refine ⟨?_, ?_⟩
      · simp [List.takeWhile_cons, List.dropWhile_cons]
      · simp [List.takeWhile_cons]
    · have hbc : (c != '.') = true := by simp [hc]
      have hrest : '.' ∈ rest := by
        rcases List.mem_cons.mp h with h1 | h1
        · exact absurd h1.symm hc
        · exact h1
      obtain ⟨h1, h2⟩ := ih hrest
      refine ⟨?_, ?_⟩
      · simp only [List.takeWhile_cons, List.dropWhile_cons, hbc, if_true,
          List.cons_append]
        exact congrArg (c :: ·) h1
      · simp only [List.takeWhile_cons, hbc, if_true, List.mem_cons]
        rintro (h3 | h3)
        · exact hc h3.symm
        · exact h2 h3

/-- Claim C10: `allowed_file` returns true exactly when the filename holds
a dot and the part after its last dot lowercases to `png`, `jpg` or `jpeg`;
in particular it returns false for every dot-free filename. -/
theorem allowed_file_iff :
    ∀ f : String, (allowed_file f = true ↔ allowedFileSpec f) ∧
      (f.toList.contains '.' = false → allowed_file f = false) := by
  intro f
  constructor
  · constructor
    · intro h
      unfold allowed_file at h
      rw [Bool.and_eq_true] at h
      obtain ⟨hc, hm⟩ := h
      have hmem : '.' ∈ f.toList := List.elem_iff.mp hc
      have hmr : '.' ∈ f.toList.reverse := List.mem_reverse.mpr hmem
      obtain ⟨heq, hnot⟩ := break_at_first_dot f.toList.reverse hmr
      refine ⟨((f.toList.reverse.dropWhile (fun c => c != '.')).tail).reverse,
        (f.toList.reverse.takeWhile (fun c => c != '.')).reverse, ?_, ?_, ?_⟩
      · conv_lhs => rw [← List.reverse_reverse f.toList, heq]
        simp [List.reverse_append]
      · intro hb
        exact hnot (List.mem_reverse.mp hb)
      · unfold rsplitDotOnce at hm
        rw [if_pos hc] at hm
        exact of_decide_eq_true hm
    · rintro ⟨a, b, hab, hb, hmem⟩
      have hc : f.toList.contains '.' = true := by
        apply List.elem_iff.mpr
        rw [hab]
        exact List.mem_append.mpr (Or.inr (List.mem_cons_self _ _))
      have hrev : f.toList.reverse = b.reverse ++ '.' :: a.reverse := by
        rw [hab]
        simp
      have htw : f.toList.reverse.takeWhile (fun c => c != '.') = b.reverse := by
        rw [hrev]
        exact takeWhile_break '.' a.reverse (by simp) b.reverse
          (fun x hx => by
            simp only [bne_iff_ne, ne_eq, decide_eq_true_eq]
            intro h0
            exact hb (h0 ▸ List.mem_reverse.mp hx))
      unfold allowed_file rsplitDotOnce
      rw [hc]
      simp only [if_true, Bool.true_and, List.getD, List.getElem?_cons_succ,
        List.getElem?_cons_zero, Option.getD_some]
      rw [htw, List.reverse_reverse]
      simp [hmem]
  · intro h0
    unfold allowed_file
    rw [h0]
    rfl

/-! ## C6: tech-stack round-trip -/

/-- Strip-and-drop-empty is the identity on a list of clean skills. -/
theorem filterMap_strip_clean :
    ∀ l : List String, (∀ s ∈ l, cleanSkill s) →
      l.filterMap (fun t =>
        let t1 := pyStrip t
        if t1 = "" then none else some t1) = l := by
  intro l
  induction l with
  | nil => intro _; rfl
  | cons s t ih =>
    intro h
    obtain ⟨hne, _, hstrip⟩ := h s (List.mem_cons_self s t)
    simp only [List.filterMap_cons, hstrip, if_neg hne]
    rw [ih (fun x hx => h x (List.mem_cons_of_mem s hx))]

/-- Splitting the comma-join of a non-empty list of comma-free strings
recovers the strings. -/
theorem pySplitComma_pyJoinComma {l : List String} (hl : ∀ s ∈ l, ',' ∉ s.toList)
    (hne : l ≠ []) : pySplitComma (pyJoinComma l) = l := by
  have hx : ∀ cs ∈ l.map String.toList, ',' ∉ cs := by
    intro cs hcs
    obtain ⟨s1, hs1, rfl⟩ := List.mem_map.mp hcs
    exact hl s1 hs1
  have hsplit : (pyJoinComma l).toList.splitOn ',' = l.map String.toList := by
    show List.splitOn ',' ([','].intercalate (l.map String.toList)) = _
    exact List.splitOn_intercalate _ ',' hx (by simpa using hne)
  unfold pySplitComma
  rw [hsplit, List.map_map]
  calc l.map (String.mk ∘ String.toList) = l.map (fun x => x) :=
        List.map_congr_left (fun a _ => rfl)
    _ = l := List.map_id' l

/-- The comma-join of a list headed by a non-empty string is non-empty. -/
theorem pyJoinComma_ne_empty {l : List String} (hl : ∀ s ∈ l, ',' ∉ s.toList)
    (hne : l ≠ []) (hhead : ∀ s ∈ l, s ≠ "") : pyJoinComma l ≠ "" := by
  intro h0
  cases l with
  | nil => exact hne rfl
  | cons s rest =>
    have hx : ∀ cs ∈ (s :: rest).map String.toList, ',' ∉ cs := by
      intro cs hcs
      obtain ⟨s1, hs1, rfl⟩ := List.mem_map.mp hcs
      exact hl s1 hs1
    have hsplit : (pyJoinComma (s :: rest)).toList.splitOn ',' =
        (s :: rest).map String.toList := by
      show List.splitOn ',' ([','].intercalate ((s :: rest).map String.toList)) = _
      exact List.splitOn_intercalate _ ',' hx (by simp)
    rw [h0] at hsplit
    have h1 : ([[]] : List (List Char)) = s.toList :: rest.map String.toList := hsplit
    have h2 : s.toList = [] := (List.cons.injEq _ _ _ _ ▸ h1).1.symm
    exact hhead s (List.mem_cons_self s rest) (String.ext h2)

/-- Claim C6: storing the comma-join of a list of clean skills and reading
it back through any of the three getters returns the original list, and a
null or empty stored value reads back as the empty list. -/
theorem tech_stack_roundtrip :
    (∀ l : List String, (∀ s ∈ l, cleanSkill s) →
      get_tech_stack_list (some (pyJoinComma l)) = l ∧
      get_required_skills_list (some (pyJoinComma l)) = l ∧
      get_tech_stack_list_flask (some (pyJoinComma l)) = l) ∧
    get_tech_stack_list none = [] ∧ get_tech_stack_list (some "") = [] ∧
    get_required_skills_list none = [] ∧ get_required_skills_list (some "") = [] ∧
    get_tech_stack_list_flask none = [] ∧ get_tech_stack_list_flask (some "") = [] := by
  refine ⟨?_, rfl, by decide, rfl, by decide, rfl, by decide⟩
  intro l hl
  cases l with
  | nil => exact ⟨by decide, by decide, by decide⟩
  | cons s rest =>
    have hl1 : ∀ x ∈ s :: rest, ',' ∉ x.toList := fun x hx => (hl x hx).2.1
    have hl2 : ∀ x ∈ s :: rest, x ≠ "" := fun x hx => (hl x hx).1
    have hne := pyJoinComma_ne_empty hl1 (List.cons_ne_nil s rest) hl2
    have hmap := pySplitComma_pyJoinComma hl1 (List.cons_ne_nil s rest)
    refine ⟨?_, ?_, ?_⟩
    · simp only [get_tech_stack_list, if_neg hne, hmap]
      exact filterMap_strip_clean _ hl
    · simp only [get_required_skills_list, if_neg hne, hmap]
      calc (s :: rest).map pyStrip = (s :: rest).map (fun x => x) :=
            List.map_congr_left (fun a ha => (hl a ha).2.2)
        _ = s :: rest := List.map_id' _
    · simp only [get_tech_stack_list_flask, if_neg hne, hmap]

/-! ## C4: application status invariant -/

/-- Claim C4: applications start as `pending`, both update operations keep
the status inside pending/accepted/rejected, and a submitted status outside
that set leaves the record unchanged and reports an error. -/
theorem application_status_invariant :
    status_default_pending = "pending" ∧
    status_default_pending ∈ APPLICATION_STATUSES ∧
    (∀ apps role pid uid m newApps,
      flask_apply_project apps role pid uid m = ApplyOutcome.created newApps →
      ∀ a ∈ newApps, a ∈ apps ∨ a.status = "pending") ∧
    (∀ current submitted, current ∈ APPLICATION_STATUSES →
      (flask_update_application current submitted).1 ∈ APPLICATION_STATUSES ∧
      (django_update_application current submitted).1 ∈ APPLICATION_STATUSES) ∧
    (∀ current submitted, submitted ∉ APPLICATION_STATUSES →
      flask_update_application current submitted = (current, true) ∧
      django_update_application current submitted = (current, true)) := by
  refine ⟨rfl, by decide, ?_, ?_, ?_⟩
  · intro apps role pid uid m newApps h a ha
    unfold flask_apply_project at h
    split at h
    · cases h
    · split at h
      · cases h
      · cases h
        rcases List.mem_append.mp ha with h1 | h1
        · exact Or.inl h1
        · simp only [List.mem_singleton] at h1
          subst h1
          exact Or.inr rfl
  · intro current submitted hcur
    constructor
    · unfold flask_update_application
      split
      · assumption
      · exact hcur
    · unfold django_update_application
      split
      · rename_i h
        rcases h with h | h <;> subst h <;> decide
      · exact hcur
  · intro current submitted hsub
    constructor
    · unfold flask_update_application
      rw [if_neg hsub]
    · unfold django_update_application
      rw [if_neg ?_]
      rintro (h | h) <;> subst h <;> exact hsub (by decide)

/-! ## C5: project status invariant -/

/-- Claim C5: projects are created `active`, and the status update of
`ManageProjectView.post` stores the submitted status exactly when it is
inside active/completed/cancelled, leaving the project unchanged
otherwise. -/
theorem project_status_invariant :
    project_status_default = "active" ∧
    project_status_default ∈ PROJECT_STATUSES ∧
    (∀ t d sk n du, (flask_create_project t d sk n du).status = "active") ∧
    (∀ current submitted, current ∈ PROJECT_STATUSES →
      manage_project_update_status current submitted ∈ PROJECT_STATUSES) ∧
    (∀ current submitted, submitted ∉ PROJECT_STATUSES →
      manage_project_update_status current submitted = current) ∧
    (∀ current submitted, submitted ∈ PROJECT_STATUSES →
      manage_project_update_status current submitted = submitted) := by
  refine ⟨rfl, by decide, fun t d sk n du => rfl, ?_, ?_, ?_⟩
  · intro current submitted hcur
    unfold manage_project_update_status
    split
    · assumption
    · exact hcur
  · intro current submitted hsub
    unfold manage_project_update_status
    rw [if_neg hsub]
  · intro current submitted hsub
    unfold manage_project_update_status
    rw [if_pos hsub]

/-! ## C3: invitation mirrors application -/

/-- Counterexample to claim C3 as stated: from a pending invitation whose
recipient is already a project member, acceptance does not add the
recipient and does not ensure the group; it raises an `IntegrityError`
after saving the status, while the application endpoint succeeds on the
same state. -/
theorem invitation_mirrors_application_cx :
    updateInvitation ⟨"pending", true, false⟩ "accepted" =
      UpdateOutcome.integrityError ⟨"accepted", true, false⟩ ∧
    updateApplication ⟨"pending", true, false⟩ "accepted" =
      UpdateOutcome.ok ⟨"accepted", true, true⟩ := by
  decide

/-- Claim C3 as amended: both models allow exactly pending/accepted/rejected
with default pending; both update endpoints reject exactly the submissions
outside accepted/rejected; and from a pending record whose subject is not
yet a member the two endpoints perform identical transitions, acceptance
adding the member and ensuring the group.  When the subject is already a
member, application acceptance still succeeds while invitation acceptance
stops with an `IntegrityError`. -/
theorem invitation_mirrors_application_amended :
    INVITATION_STATUSES = APPLICATION_STATUSES ∧
    ("pending" ∈ INVITATION_STATUSES ∧ status_default_pending = "pending") ∧
    (∀ isM gE newStatus,
      updateInvitation ⟨"pending", isM, gE⟩ newStatus = UpdateOutcome.invalidStatus ↔
        (newStatus ≠ "accepted" ∧ newStatus ≠ "rejected")) ∧
    (∀ isM gE newStatus,
      updateApplication ⟨"pending", isM, gE⟩ newStatus = UpdateOutcome.invalidStatus ↔
        (newStatus ≠ "accepted" ∧ newStatus ≠ "rejected")) ∧
    (∀ gE newStatus, newStatus = "accepted" ∨ newStatus = "rejected" →
      updateInvitation ⟨"pending", false, gE⟩ newStatus =
        updateApplication ⟨"pending", false, gE⟩ newStatus) ∧
    (∀ gE, updateInvitation ⟨"pending", false, gE⟩ "accepted" =
      UpdateOutcome.ok ⟨"accepted", true, true⟩) ∧
    (∀ gE, updateApplication ⟨"pending", false, gE⟩ "accepted" =
      UpdateOutcome.ok ⟨"accepted", true, true⟩) ∧
    (∀ gE isM, updateInvitation ⟨"pending", isM, gE⟩ "rejected" =
      UpdateOutcome.ok ⟨"rejected", isM, gE⟩ ∧
      updateApplication ⟨"pending", isM, gE⟩ "rejected" =
        UpdateOutcome.ok ⟨"rejected", isM, gE⟩) ∧
    (∀ gE, updateApplication ⟨"pending", true, gE⟩ "accepted" =
      UpdateOutcome.ok ⟨"accepted", true, true⟩ ∧
      updateInvitation ⟨"pending", true, gE⟩ "accepted" =
        UpdateOutcome.integrityError ⟨"accepted", true, gE⟩) := by
  refine ⟨rfl, ⟨by decide, rfl⟩, ?_, ?_, ?_,
    fun gE => by cases gE <;> decide,
    fun gE => by cases gE <;> decide,
    ?_,
    fun gE => by cases gE <;> exact ⟨by decide, by decide⟩⟩
  · intro isM gE newStatus
    unfold updateInvitation
    constructor
    · intro h
      by_contra hn
      rw [if_neg hn] at h
      split at h <;> [skip; cases h]
      split at h <;> cases h
    · intro hn
      rw [if_pos hn]
  · intro isM gE newStatus
    unfold updateApplication
    constructor
    · intro h
      by_contra hn
      rw [if_neg hn] at h
      split at h <;> cases h
    · intro hn
      rw [if_pos hn]
  · rintro gE newStatus (h | h) <;> subst h <;> cases gE <;> decide
  · intro gE isM
    cases gE <;> cases isM <;> exact ⟨by decide, by decide⟩

/-! ## C7: group messages are ordered -/

/-- Claim C7: the message list a member sees is ordered by ascending
creation time and holds exactly the messages of the group. -/
theorem group_messages_ordered :
    ∀ st userId g msgs, viewGroupGet st userId g = some msgs →
      msgs.Pairwise msgCreatedLe ∧
      msgs.Perm (st.messages.filter (fun m => m.groupId == g.gid)) := by
  intro st userId g msgs h
  unfold viewGroupGet at h
  split at h
  · cases h
    exact ⟨List.sorted_insertionSort msgCreatedLe _,
      List.perm_insertionSort msgCreatedLe _⟩
  · cases h

/-! ## C8: group posting requires membership -/

/-- Claim C8: a sender without a membership in the group project never
creates a message (the state is returned unchanged with the error flag),
and is never shown the message list. -/
theorem group_post_requires_membership :
    ∀ st userId g newId raw now, isProjectMember st userId g.projectId = false →
      viewGroupPost st userId g newId raw now = (st, true) ∧
      viewGroupGet st userId g = none := by
  intro st userId g newId raw now h
  constructor
  · unfold viewGroupPost
    rw [h]
    rfl
  · unfold viewGroupGet
    rw [h]
    rfl

/-! ## C9: at most one application per (project, applicant) -/

/-- An existing application for the pair makes `hasApplied` true. -/
theorem hasApplied_of_exists {apps : List ApplicationRow} {pid uid : Nat}
    (h : ∃ a ∈ apps, a.projectId = pid ∧ a.applicantId = uid) :
    hasApplied apps pid uid = true := by
  obtain ⟨a, ha, h1, h2⟩ := h
  unfold hasApplied
  rw [List.any_eq_true]
  exact ⟨a, ha, by simp [h1, h2]⟩

/-- Appending a fresh pair keeps the per-pair uniqueness. -/
theorem pairUnique_append {apps : List ApplicationRow} {pid uid : Nat}
    {status message : String} (hu : pairUnique apps)
    (hfresh : hasApplied apps pid uid = false) :
    pairUnique (apps ++ [⟨pid, uid, status, message⟩]) := by
  unfold pairUnique
  rw [List.pairwise_append]
  refine ⟨hu, List.pairwise_singleton _ _, ?_⟩
  intro a ha b hb
  simp only [List.mem_singleton] at hb
  subst hb
  rintro ⟨h1, h2⟩
  have : hasApplied apps pid uid = true := hasApplied_of_exists ⟨a, ha, h1, h2⟩
  rw [hfresh] at this
  cases this

/-- Claim C9: the three apply operations refuse a duplicate (project,
applicant) pair, leaving the table unchanged, and every table satisfying
the uniqueness constraint still satisfies it after a successful apply; the
`crewd` POST insert is stopped by the `unique_together` constraint
itself. -/
theorem application_uniqueness :
    (∀ apps role pid uid m, pairUnique apps →
      ((∃ a ∈ apps, a.projectId = pid ∧ a.applicantId = uid) →
        flask_apply_project apps role pid uid m = ApplyOutcome.alreadyApplied ∨
        flask_apply_project apps role pid uid m = ApplyOutcome.wrongRole) ∧
      (∀ newApps, flask_apply_project apps role pid uid m = ApplyOutcome.created newApps →
        pairUnique newApps)) ∧
    (∀ apps role pid uid m, pairUnique apps →
      ((∃ a ∈ apps, a.projectId = pid ∧ a.applicantId = uid) →
        core_apply_project apps role pid uid m = ApplyOutcome.alreadyApplied ∨
        core_apply_project apps role pid uid m = ApplyOutcome.wrongRole) ∧
      (∀ newApps, core_apply_project apps role pid uid m = ApplyOutcome.created newApps →
        pairUnique newApps)) ∧
    (∀ apps pid uid m, pairUnique apps →
      ((∃ a ∈ apps, a.projectId = pid ∧ a.applicantId = uid) →
        crewd_apply_post apps pid uid m = Except.error ()) ∧
      (∀ newApps, crewd_apply_post apps pid uid m = Except.ok newApps →
        pairUnique newApps)) ∧
    (∀ apps memberships creatorId uid pid,
      (∃ a ∈ apps, a.projectId = pid ∧ a.applicantId = uid) →
      crewd_apply_get apps memberships creatorId uid pid = false) := by
  refine ⟨?_, ?_, ?_, ?_⟩
  · intro apps role pid uid m hu
    constructor
    · intro hex
      unfold flask_apply_project
      split
      · exact Or.inr rfl
      · rw [if_pos (hasApplied_of_exists hex)]
        exact Or.inl rfl
    · intro newApps h
      unfold flask_apply_project at h
      split at h
      · cases h
      · split at h
        · cases h
        · rename_i hfresh
          cases h
          exact pairUnique_append hu (Bool.not_eq_true _ ▸ eq_false_of_ne_true hfresh)
  · intro apps role pid uid m hu
    constructor
    · intro hex
      unfold core_apply_project
      split
      · exact Or.inr rfl
      · rw [if_pos (hasApplied_of_exists hex)]
        exact Or.inl rfl
    · intro newApps h
      unfold core_apply_project at h
      split at h
      · cases h
      · split at h
        · cases h
        · rename_i hfresh
          cases h
          exact pairUnique_append hu (Bool.not_eq_true _ ▸ eq_false_of_ne_true hfresh)
  · intro apps pid uid m hu
    constructor
    · intro hex
      unfold crewd_apply_post
      rw [if_pos (hasApplied_of_exists hex)]
    · intro newApps h
      unfold crewd_apply_post at h
      split at h
      · cases h
      · rename_i hfresh
        cases h
        exact pairUnique_append hu (Bool.not_eq_true _ ▸ eq_false_of_ne_true hfresh)
  · intro apps memberships creatorId uid pid hex
    unfold crewd_apply_get
    split
    · rfl
    · rw [if_pos (hasApplied_of_exists hex)]

/-! ## C1: skill matching -/

/-- An empty user skill list matches nothing. -/
theorem matchingSkillCount_nil_left (l : List String) : matchingSkillCount [] l = 0 := by
  simp [matchingSkillCount]

/-- An empty project skill list matches nothing. -/
theorem matchingSkillCount_nil_right (l : List String) : matchingSkillCount l [] = 0 := by
  simp [matchingSkillCount]

/-- Soundness of the project scoring pipeline: every entry carries the
intersection cardinality as its score and that score is non-zero. -/
theorem proj_pipeline_sound (uts : List String) (projects : List ProjectRow)
    {p : ProjectRow} {n : Nat}
    (h : (p, n) ∈ ((scoreProjects uts projects).insertionSort projCountGe).take 6) :
    n = matchingSkillCount uts (get_required_skills_list p.requiredSkills) ∧ n ≠ 0 := by
  have h1 := mem_of_mem_sortTake projCountGe h
  unfold scoreProjects at h1
  rw [List.mem_filterMap] at h1
  obtain ⟨a, _, hfa⟩ := h1
  dsimp only at hfa
  split at hfa
  · cases hfa
  · rename_i hne
    injection hfa with h2
    cases h2
    exact ⟨rfl, hne⟩

/-- Under the truncation bound, the project pipeline holds exactly the
matching projects with their scores. -/
theorem proj_pipeline_complete (uts : List String) (projects : List ProjectRow)
    (hlen : (projects.filter (fun q =>
      matchingSkillCount uts (get_required_skills_list q.requiredSkills) != 0)).length ≤ 6)
    (p : ProjectRow) (n : Nat) :
    (p, n) ∈ ((scoreProjects uts projects).insertionSort projCountGe).take 6 ↔
      (p ∈ projects.filter (fun q =>
        matchingSkillCount uts (get_required_skills_list q.requiredSkills) != 0) ∧
       n = matchingSkillCount uts (get_required_skills_list p.requiredSkills)) := by
  have heq : scoreProjects uts projects =
      (projects.filter (fun q =>
        matchingSkillCount uts (get_required_skills_list q.requiredSkills) != 0)).map
        (fun q => (q, matchingSkillCount uts (get_required_skills_list q.requiredSkills))) :=
    filterMap_score_eq _ _ projects
  rw [mem_sortTake_iff_of_length_le projCountGe
    (by rw [heq, List.length_map]; exact hlen)]
  rw [heq, List.mem_map]
  constructor
  · rintro ⟨q, hq, hqe⟩
    cases hqe
    exact ⟨hq, rfl⟩
  · rintro ⟨hp, rfl⟩
    exact ⟨p, hp, rfl⟩

/-- Soundness of the contributor scoring pipeline: every entry carries the
intersection cardinality and the derived percentage, and the cardinality is
non-zero. -/
theorem user_pipeline_sound (ps : List String) (users : List UserRow)
    {u : UserRow} {n : Nat} {q : ℚ}
    (h : (u, n, q) ∈ ((scoreUsers ps users).insertionSort userPercentGe).take 9) :
    n = matchingSkillCount (get_tech_stack_list u.techStack) ps ∧ n ≠ 0 ∧
      q = (n : ℚ) / (ps.length : ℚ) * 100 := by
  have h1 := mem_of_mem_sortTake userPercentGe h
  unfold scoreUsers at h1
  rw [List.mem_filterMap] at h1
  obtain ⟨a, _, hfa⟩ := h1
  dsimp only at hfa
  split at hfa
  · cases hfa
  · rename_i hne
    injection hfa with h2
    cases h2
    exact ⟨rfl, hne, rfl⟩

/-- Under the truncation bound, the contributor pipeline holds exactly the
matching users with their scores and percentages. -/
theorem user_pipeline_complete (ps : List String) (users : List UserRow)
    (hlen : (users.filter (fun v =>
      matchingSkillCount (get_tech_stack_list v.techStack) ps != 0)).length ≤ 9)
    (u : UserRow) (n : Nat) (q : ℚ) :
    (u, n, q) ∈ ((scoreUsers ps users).insertionSort userPercentGe).take 9 ↔
      (u ∈ users.filter (fun v =>
        matchingSkillCount (get_tech_stack_list v.techStack) ps != 0) ∧
       n = matchingSkillCount (get_tech_stack_list u.techStack) ps ∧
       q = (n : ℚ) / (ps.length : ℚ) * 100) := by
  have heq : scoreUsers ps users =
      (users.filter (fun v =>
        matchingSkillCount (get_tech_stack_list v.techStack) ps != 0)).map
        (fun v => (v, matchingSkillCount (get_tech_stack_list v.techStack) ps,
          ((matchingSkillCount (get_tech_stack_list v.techStack) ps : ℚ) /
            (ps.length : ℚ)) * 100)) :=
    filterMap_score_eq _ _ users
  rw [mem_sortTake_iff_of_length_le userPercentGe
    (by rw [heq, List.length_map]; exact hlen)]
  rw [heq, List.mem_map]
  constructor
  · rintro ⟨v, hv, hve⟩
    cases hve
    exact ⟨hv, rfl, rfl⟩
  · rintro ⟨hu, rfl, rfl⟩
    exact ⟨u, hu, rfl⟩

/-- Counterexample to claim C1 as stated: with seven active foreign
projects all sharing the single skill `Python` with the user, project 7 has
a non-empty intersection yet is not recommended, because the dashboard
keeps only the first six. -/
theorem recommendation_matching_cx :
    (⟨7, some "Python", "active", 99⟩ : ProjectRow) ∈ sevenPythonProjects ∧
    matchingSkillCount (get_tech_stack_list (some "Python"))
      (get_required_skills_list (some "Python")) = 1 ∧
    (⟨7, some "Python", "active", 99⟩ : ProjectRow) ∉
      (applicantRecommendedProjects 0 (some "Python") sevenPythonProjects).map Prod.fst := by
  decide

/-- Claim C1 as amended: in all three recommendation operations the match
score of an entity equals the cardinality of the intersection of the two
skill sets and every recommended entity has a non-empty intersection; the
recommended lists are ordered by descending score (for FindContributors by
descending percentage of the project skills matched); and whenever at most
6 projects (resp. 9 contributors) match, an entity is recommended exactly
when its intersection is non-empty. -/
theorem recommendation_matching_amended :
    (∀ userId userTechStack allProjects (p : ProjectRow) (n : Nat),
      (p, n) ∈ applicantRecommendedProjects userId userTechStack allProjects →
        n = matchingSkillCount (get_tech_stack_list userTechStack)
              (get_required_skills_list p.requiredSkills) ∧ n ≠ 0) ∧
    (∀ userId userTechStack allProjects,
      (applicantRecommendedProjects userId userTechStack allProjects).Pairwise
        projCountGe) ∧
    (∀ userId userTechStack allProjects,
      (applicantMatching userId userTechStack allProjects).length ≤ 6 →
      ∀ (p : ProjectRow) (n : Nat),
        (p, n) ∈ applicantRecommendedProjects userId userTechStack allProjects ↔
          (p ∈ applicantMatching userId userTechStack allProjects ∧
           n = matchingSkillCount (get_tech_stack_list userTechStack)
                 (get_required_skills_list p.requiredSkills))) ∧
    (∀ userTechStack projects (p : ProjectRow) (n : Nat),
      (p, n) ∈ projectsListRecommended userTechStack projects →
        n = matchingSkillCount (get_tech_stack_list userTechStack)
              (get_required_skills_list p.requiredSkills) ∧ n ≠ 0) ∧
    (∀ userTechStack projects,
      (projectsListRecommended userTechStack projects).Pairwise projCountGe) ∧
    (∀ userTechStack projects,
      (projectsListMatching userTechStack projects).length ≤ 6 →
      ∀ (p : ProjectRow) (n : Nat),
        (p, n) ∈ projectsListRecommended userTechStack projects ↔
          (p ∈ projectsListMatching userTechStack projects ∧
           n = matchingSkillCount (get_tech_stack_list userTechStack)
                 (get_required_skills_list p.requiredSkills))) ∧
    (∀ projectRequiredSkills matchFilter users (u : UserRow) (n : Nat) (q : ℚ),
      (u, n, q) ∈ findContributorsRecommended projectRequiredSkills matchFilter users →
        n = matchingSkillCount (get_tech_stack_list u.techStack)
              (get_required_skills_list projectRequiredSkills) ∧ n ≠ 0 ∧
        q = (n : ℚ) / ((get_required_skills_list projectRequiredSkills).length : ℚ) * 100) ∧
    (∀ projectRequiredSkills matchFilter users,
      (findContributorsRecommended projectRequiredSkills matchFilter users).Pairwise
        userPercentGe) ∧
    (∀ projectRequiredSkills users,
      (findContributorsMatching projectRequiredSkills users).length ≤ 9 →
      ∀ (u : UserRow) (n : Nat) (q : ℚ),
        (u, n, q) ∈ findContributorsRecommended projectRequiredSkills "recommended" users ↔
          (u ∈ findContributorsMatching projectRequiredSkills users ∧
           n = matchingSkillCount (get_tech_stack_list u.techStack)
                 (get_required_skills_list projectRequiredSkills) ∧
           q = (n : ℚ) /
                 ((get_required_skills_list projectRequiredSkills).length : ℚ) * 100)) := by
  refine ⟨?_, ?_, ?_, ?_, ?_, ?_, ?_, ?_, ?_⟩
  · intro userId userTechStack allProjects p n h
    simp only [applicantRecommendedProjects] at h
    split at h
    · cases h
    · exact proj_pipeline_sound _ _ h
  · intro userId userTechStack allProjects
    simp only [applicantRecommendedProjects]
    split
    · exact List.Pairwise.nil
    · exact pairwise_sortTake projCountGe _ 6
  · intro userId userTechStack allProjects hlen p n
    simp only [applicantRecommendedProjects]
    split
    · rename_i huts
      have hmat : applicantMatching userId userTechStack allProjects = [] := by
        apply List.filter_eq_nil_iff.mpr
        intro a _
        rw [huts, matchingSkillCount_nil_left]
        decide
      rw [hmat]
      simp
    · exact proj_pipeline_complete _ _ hlen p n
  · intro userTechStack projects p n h
    simp only [projectsListRecommended] at h
    split at h
    · cases h
    · exact proj_pipeline_sound _ _ h
  · intro userTechStack projects
    simp only [projectsListRecommended]
    split
    · exact List.Pairwise.nil
    · exact pairwise_sortTake projCountGe _ 6
  · intro userTechStack projects hlen p n
    simp only [projectsListRecommended]
    split
    · rename_i huts
      have hmat : projectsListMatching userTechStack projects = [] := by
        apply List.filter_eq_nil_iff.mpr
        intro a _
        rw [huts, matchingSkillCount_nil_left]
        decide
      rw [hmat]
      simp
    · exact proj_pipeline_complete _ _ hlen p n
  · intro projectRequiredSkills matchFilter users u n q h
    simp only [findContributorsRecommended] at h
    split at h
    · cases h
    · exact user_pipeline_sound _ _ h
  · intro projectRequiredSkills matchFilter users
    simp only [findContributorsRecommended]
    split
    · exact List.Pairwise.nil
    · exact pairwise_sortTake userPercentGe _ 9
  · intro projectRequiredSkills users hlen u n q
    simp only [findContributorsRecommended]
    split
    · rename_i hcond
      rcases hcond with hps | hmf
      · have hmat : findContributorsMatching projectRequiredSkills users = [] := by
          apply List.filter_eq_nil_iff.mpr
          intro a _
          rw [hps, matchingSkillCount_nil_right]
          decide
        rw [hmat]
        simp
      · exact absurd rfl hmf
    · exact user_pipeline_complete _ _ hlen u n q

/-! ## C2: tech-stack suggestion is best-effort -/

/-- Claim C2: for a non-empty description, an exception or timeout, a
non-200 status, or 200-content without an extractable JSON list all yield a
successful response carrying the keyword fallback, in both endpoint
iterations; an empty description yields a 400 error response. -/
theorem analyze_tech_stack_best_effort :
    (∀ d : String, d ≠ "" →
      analyze_tech_stack_dashboard (some d) HttpResult.exn =
        ApiResponse.ok (fallback_analyze_dashboard d) ∧
      (∀ statusCode extracted, statusCode ≠ 200 →
        analyze_tech_stack_dashboard (some d) (HttpResult.response statusCode extracted) =
          ApiResponse.ok (fallback_analyze_dashboard d)) ∧
      analyze_tech_stack_dashboard (some d) (HttpResult.response 200 none) =
        ApiResponse.ok (fallback_analyze_dashboard d) ∧
      (∀ apiKey, analyze_tech_stack_views d apiKey GrokOutcome.exn =
        ApiResponse.ok (fallback_analyze_views d))) ∧
    (∀ http, analyze_tech_stack_dashboard (some "") http =
      ApiResponse.badRequest "Project description is required") ∧
    (∀ apiKey outcome, analyze_tech_stack_views "" apiKey outcome =
      ApiResponse.badRequest "No description provided") := by
  have hkey : grok_api_key ≠ "" := by decide
  refine ⟨?_, ?_, ?_⟩
  · intro d hd
    refine ⟨?_, ?_, ?_, ?_⟩
    · simp only [analyze_tech_stack_dashboard]
      rw [if_neg hd, if_neg hkey]
    · intro statusCode extracted hsc
      simp only [analyze_tech_stack_dashboard]
      rw [if_neg hd, if_neg hkey, if_neg hsc]
    · simp only [analyze_tech_stack_dashboard]
      rw [if_neg hd, if_neg hkey]
      simp
    · intro apiKey
      unfold analyze_tech_stack_views
      rw [if_neg hd]
      unfold analyze_with_grok
      cases apiKey with
      | none => rfl
      | some k =>
        dsimp only
        by_cases hk : k = ""
        · rw [if_pos hk]
        · rw [if_neg hk]
  · intro http
    simp [analyze_tech_stack_dashboard]
  · intro apiKey outcome
    unfold analyze_tech_stack_views
    rw [if_pos rfl]

/-! ## Witnesses -/

/-- Witness for C10 at concrete filenames: `photo.JPG` passes the filter,
`photo` does not. -/
theorem allowed_file_iff_witness :
    allowed_file "photo.JPG" = true ∧ allowed_file "photo" = false :=
  ⟨(allowed_file_iff "photo.JPG").1.mpr
      ⟨"photo".toList, "JPG".toList, by decide, by decide, by decide⟩,
    (allowed_file_iff "photo").2 (by decide)⟩

/-- Witness for C6 at the concrete list `["Python", "Django"]`. -/
theorem tech_stack_roundtrip_witness :
    get_tech_stack_list (some (pyJoinComma ["Python", "Django"])) = ["Python", "Django"] ∧
    get_required_skills_list (some (pyJoinComma ["Python", "Django"])) = ["Python", "Django"] ∧
    get_tech_stack_list_flask (some (pyJoinComma ["Python", "Django"])) = ["Python", "Django"] :=
  tech_stack_roundtrip.1 ["Python", "Django"] (by decide)

/-- Witness for C4 at concrete statuses: a pending record accepts
`accepted` and survives a bogus submission unchanged with an error. -/
theorem application_status_invariant_witness :
    (flask_update_application "pending" "accepted").1 ∈ APPLICATION_STATUSES ∧
    (django_update_application "pending" "accepted").1 ∈ APPLICATION_STATUSES ∧
    flask_update_application "pending" "bogus" = ("pending", true) ∧
    django_update_application "pending" "bogus" = ("pending", true) ∧
    (∀ a ∈ [(⟨1, 2, "pending", "hi"⟩ : ApplicationRow)],
      a ∈ ([] : List ApplicationRow) ∨ a.status = "pending") :=
  ⟨(application_status_invariant.2.2.2.1 "pending" "accepted" (by decide)).1,
    (application_status_invariant.2.2.2.1 "pending" "accepted" (by decide)).2,
    (application_status_invariant.2.2.2.2 "pending" "bogus" (by decide)).1,
    (application_status_invariant.2.2.2.2 "pending" "bogus" (by decide)).2,
    application_status_invariant.2.2.1 [] "applicant" 1 2 "hi"
      [⟨1, 2, "pending", "hi"⟩] (by decide)⟩

/-- Witness for C5 at concrete statuses. -/
theorem project_status_invariant_witness :
    manage_project_update_status "active" "completed" ∈ PROJECT_STATUSES ∧
    manage_project_update_status "active" "bogus" = "active" ∧
    manage_project_update_status "active" "completed" = "completed" :=
  ⟨project_status_invariant.2.2.2.1 "active" "completed" (by decide),
    project_status_invariant.2.2.2.2.1 "active" "bogus" (by decide),
    project_status_invariant.2.2.2.2.2 "active" "completed" (by decide)⟩

/-- Witness for the amended C3 at concrete states: a bogus submission is
rejected by both endpoints, and accepting a pending invitation of a
non-member matches accepting a pending application. -/
theorem invitation_mirrors_application_amended_witness :
    updateInvitation ⟨"pending", false, false⟩ "bogus" = UpdateOutcome.invalidStatus ∧
    updateApplication ⟨"pending", false, false⟩ "bogus" = UpdateOutcome.invalidStatus ∧
    updateInvitation ⟨"pending", false, false⟩ "accepted" =
      updateApplication ⟨"pending", false, false⟩ "accepted" :=
  ⟨(invitation_mirrors_application_amended.2.2.1 false false "bogus").mpr
      ⟨by decide, by decide⟩,
    (invitation_mirrors_application_amended.2.2.2.1 false false "bogus").mpr
      ⟨by decide, by decide⟩,
    invitation_mirrors_application_amended.2.2.2.2.1 false "accepted" (Or.inl rfl)⟩

/-- Witness for C7 at a concrete two-message group. -/
theorem group_messages_ordered_witness :
    List.Pairwise msgCreatedLe
      [(⟨1, 1, 1, "a", 3⟩ : MessageRow), ⟨2, 1, 1, "b", 5⟩] ∧
    List.Perm [(⟨1, 1, 1, "a", 3⟩ : MessageRow), ⟨2, 1, 1, "b", 5⟩]
      ((⟨[⟨1, 1⟩], [⟨2, 1, 1, "b", 5⟩, ⟨1, 1, 1, "a", 3⟩]⟩ : ChatState).messages.filter
        (fun m => m.groupId == (⟨1, 1⟩ : GroupRow).gid)) :=
  group_messages_ordered ⟨[⟨1, 1⟩], [⟨2, 1, 1, "b", 5⟩, ⟨1, 1, 1, "a", 3⟩]⟩ 1 ⟨1, 1⟩
    [⟨1, 1, 1, "a", 3⟩, ⟨2, 1, 1, "b", 5⟩] (by decide)

/-- Witness for C8 at a concrete non-member. -/
theorem group_post_requires_membership_witness :
    viewGroupPost ⟨[], []⟩ 1 ⟨1, 1⟩ 1 "hi" 0 = (⟨[], []⟩, true) ∧
    viewGroupGet ⟨[], []⟩ 1 ⟨1, 1⟩ = none :=
  group_post_requires_membership ⟨[], []⟩ 1 ⟨1, 1⟩ 1 "hi" 0 (by decide)

/-- Witness for C9 at a concrete one-row table. -/
theorem application_uniqueness_witness :
    (flask_apply_project [⟨1, 2, "pending", "m"⟩] "applicant" 1 2 "x" =
        ApplyOutcome.alreadyApplied ∨
      flask_apply_project [⟨1, 2, "pending", "m"⟩] "applicant" 1 2 "x" =
        ApplyOutcome.wrongRole) ∧
    crewd_apply_post [⟨1, 2, "pending", "m"⟩] 1 2 "x" = Except.error () ∧
    pairUnique [⟨1, 2, "pending", "x"⟩] ∧
    crewd_apply_get [⟨1, 2, "pending", "m"⟩] [] 9 2 1 = false :=
  ⟨(application_uniqueness.1 [⟨1, 2, "pending", "m"⟩] "applicant" 1 2 "x"
      (by decide)).1 ⟨⟨1, 2, "pending", "m"⟩, by decide, rfl, rfl⟩,
    (application_uniqueness.2.2.1 [⟨1, 2, "pending", "m"⟩] 1 2 "x" (by decide)).1
      ⟨⟨1, 2, "pending", "m"⟩, by decide, rfl, rfl⟩,
    (application_uniqueness.1 [] "applicant" 1 2 "x" (by decide)).2
      [⟨1, 2, "pending", "x"⟩] (by decide),
    application_uniqueness.2.2.2 [⟨1, 2, "pending", "m"⟩] [] 9 2 1
      ⟨⟨1, 2, "pending", "m"⟩, by decide, rfl, rfl⟩⟩

/-- Witness for the amended C1 at concrete one-entity inputs: a single
matching project is recommended with score 1, and a single matching user is
recommended with score 1 and percentage 100. -/
theorem recommendation_matching_amended_witness :
    ((⟨1, some "Python", "active", 99⟩ : ProjectRow), 1) ∈
      applicantRecommendedProjects 0 (some "Python")
        [⟨1, some "Python", "active", 99⟩] ∧
    ((⟨5, some "Python"⟩ : UserRow), 1,
        ((1 : ℕ) : ℚ) /
          (((get_required_skills_list (some "Python")).length : ℕ) : ℚ) * 100) ∈
      findContributorsRecommended (some "Python") "recommended"
        [⟨5, some "Python"⟩] :=
  ⟨(recommendation_matching_amended.2.2.1 0 (some "Python")
      [⟨1, some "Python", "active", 99⟩] (by decide)
      ⟨1, some "Python", "active", 99⟩ 1).mpr ⟨by decide, by decide⟩,
    (recommendation_matching_amended.2.2.2.2.2.2.2.2 (some "Python")
      [⟨5, some "Python"⟩] (by decide) ⟨5, some "Python"⟩ 1 _).mpr
      ⟨by decide, by decide, rfl⟩⟩

/-- Witness for C2 at the concrete description `web` and status 500. -/
theorem analyze_tech_stack_best_effort_witness :
    analyze_tech_stack_dashboard (some "web") HttpResult.exn =
      ApiResponse.ok (fallback_analyze_dashboard "web") ∧
    analyze_tech_stack_dashboard (some "web")
        (HttpResult.response 500 (some ["Python"])) =
      ApiResponse.ok (fallback_analyze_dashboard "web") ∧
    analyze_tech_stack_dashboard (some "web") (HttpResult.response 200 none) =
      ApiResponse.ok (fallback_analyze_dashboard "web") ∧
    analyze_tech_stack_views "web" (some "key") GrokOutcome.exn =
      ApiResponse.ok (fallback_analyze_views "web") ∧
    analyze_tech_stack_dashboard (some "") HttpResult.exn =
      ApiResponse.badRequest "Project description is required" ∧
    analyze_tech_stack_views "" none GrokOutcome.exn =
      ApiResponse.badRequest "No description provided" :=
  ⟨(analyze_tech_stack_best_effort.1 "web" (by decide)).1,
    (analyze_tech_stack_best_effort.1 "web" (by decide)).2.1 500 (some ["Python"])
      (by decide),
    (analyze_tech_stack_best_effort.1 "web" (by decide)).2.2.1,
    (analyze_tech_stack_best_effort.1 "web" (by decide)).2.2.2 (some "key"),
    analyze_tech_stack_best_effort.2.1 HttpResult.exn,
    analyze_tech_stack_best_effort.2.2 none GrokOutcome.exn⟩

end Crewd
